import Mathlib

/-!
Verification of the github-certification-ranking fetch pipeline.

This file embeds the two source modules of the repository:

* `fetch_country.py` — per-country paginated fetch from the credentialing
  directory, per-user external-badge lookup, CSV writing, and the
  single-country CLI entry point;
* `fetch_data.py` — the multi-country orchestrator that runs one
  subprocess-equivalent unit per country under a worker pool with a
  per-country timeout.

Network responses are modelled as explicit values fed to the embedded
functions: a directory page is either a failure or a JSON object whose
`data` field may be absent; the external-badge endpoint likewise.  The
subprocess run in the orchestrator is modelled by a function from country
and timeout to an abstract run result.  CSV output is modelled as the
list of rows the writer emits, paired with the output path.
-/

namespace CertRank

/-- A badge descriptor as nested under the `external_badge` key of one
element of the external-badges `data` array.  Both fields are optional,
mirroring the `.get(key, default)` accesses in the source. -/
structure ExternalBadge where
  badge_name : Option String
  issuer_name : Option String
deriving DecidableEq

/-- One element of the external-badges `data` array; the `external_badge`
key itself may be absent, in which case both names default to empty. -/
structure BadgeEntry where
  external_badge : Option ExternalBadge
deriving DecidableEq

/-- The outcome of one call to the external-badges endpoint: any transport
error, HTTP error status or parse error is `fail`; otherwise the parsed
JSON object, whose `data` array may be absent. -/
inductive ExternalResp where
  | fail
  | ok (data : Option (List BadgeEntry))
deriving DecidableEq

/-- The badge name: absent levels default to the empty string. -/
def badgeNameOf (b : BadgeEntry) : String :=
  match b.external_badge with
  | none => ""
  | some eb => eb.badge_name.getD ""

/-- The issuer name: absent levels default to the empty string. -/
def issuerNameOf (b : BadgeEntry) : String :=
  match b.external_badge with
  | none => ""
  | some eb => eb.issuer_name.getD ""

/-- Substring test on char lists: Python's `needle in hay`. -/
def listHasSub (needle : List Char) : List Char → Bool
  | [] => needle.isEmpty
  | c :: rest => List.isPrefixOf needle (c :: rest) || listHasSub needle rest

/-- Substring test on strings: Python's `needle in hay`. -/
def strHasSub (needle hay : String) : Bool :=
  listHasSub needle.toList hay.toList

/-- Embeds `fetch_github_external_badges` (fetch_country.py, lines 15–38), as a
function of the endpoint's response: on failure it returns 0; otherwise it
counts the entries of the `data` array (absent = empty) whose issuer name
is `"Microsoft"` and whose badge name contains `"GitHub"`. -/
def fetch_github_external_badges (resp : ExternalResp) : Nat :=
  match resp with
  | ExternalResp.fail => 0
  | ExternalResp.ok data =>
      ((data.getD []).filter
        (fun b => issuerNameOf b == "Microsoft" && strHasSub "GitHub" (badgeNameOf b))).length

/-- The specification-level containment relation: `needle` occurs
contiguously inside `hay`. -/
def ContainsSub (needle hay : String) : Prop :=
  ∃ l r, hay.toList = l ++ needle.toList ++ r

lemma listHasSub_iff (n : List Char) :
    ∀ h : List Char, listHasSub n h = true ↔ ∃ l r, h = l ++ n ++ r := by
  intro h
  induction h with
  | nil =>
      simp only [listHasSub, List.isEmpty_iff]
      constructor
      · rintro rfl; exact ⟨[], [], rfl⟩
      · rintro ⟨l, r, hlr⟩
        rcases List.append_eq_nil.mp (List.append_eq_nil.mp hlr.symm).1 with ⟨-, h2⟩
        exact h2
  | cons c rest ih =>
      simp only [listHasSub, Bool.or_eq_true, List.isPrefixOf_iff_prefix, ih]
      constructor
      · rintro (⟨t, ht⟩ | ⟨l, r, hlr⟩)
        · exact ⟨[], t, by simpa using ht.symm⟩
        · exact ⟨c :: l, r, by simp [hlr]⟩
      · rintro ⟨l, r, hlr⟩
        cases l with
        | nil => exact Or.inl ⟨r, by simpa using hlr.symm⟩
        | cons x xs =>
            refine Or.inr ⟨xs, r, ?_⟩
            have := hlr
            simp only [List.cons_append] at this
            exact (List.cons.injEq .. ▸ this).2

lemma strHasSub_iff (n h : String) : strHasSub n h = true ↔ ContainsSub n h :=
  listHasSub_iff n.toList h.toList

instance (n h : String) : Decidable (ContainsSub n h) :=
  decidable_of_iff (strHasSub n h = true) (strHasSub_iff n h)

/-- A user object from the directory's `data` array.  Every field is
optional, mirroring the `.get` accesses of the source; `id` is the opaque
user id, `badge_count` the primary badge count as returned by the
directory. -/
structure UserRecord where
  id : Option String
  first_name : Option String
  middle_name : Option String
  last_name : Option String
  badge_count : Option Nat
deriving DecidableEq

/-- Python truthiness of the id field: present and non-empty. -/
def truthyId (u : UserRecord) : Prop :=
  ∃ uid, u.id = some uid ∧ uid ≠ ""

instance (u : UserRecord) : Decidable (truthyId u) := by
  unfold truthyId
  cases h : u.id with
  | none => exact Decidable.isFalse (by simp [h])
  | some uid =>
      by_cases he : uid = ""
      · exact Decidable.isFalse (by simp [h, he])
      · exact Decidable.isTrue ⟨uid, rfl, he⟩

/-- The per-user body of the page loop (fetch_country.py, lines 62–66):
when the record carries a truthy id, look up its external badges and add
the returned count to the primary count (absent primary count defaults
to 0); otherwise touch nothing.  The second component records which user
ids were looked up on the external endpoint. -/
def processUser (ext : String → ExternalResp) (u : UserRecord) :
    UserRecord × List String :=
  match u.id with
  | none => (u, [])
  | some uid =>
      if uid = "" then (u, [])
      else
        ({ u with
            badge_count :=
              some (u.badge_count.getD 0 + fetch_github_external_badges (ext uid)) },
          [uid])

/-- The whole `for user in users` loop over one page. -/
def processUsers (ext : String → ExternalResp) :
    List UserRecord → List UserRecord × List String
  | [] => ([], [])
  | u :: rest =>
      let p := processUser ext u
      let q := processUsers ext rest
      (p.1 :: q.1, p.2 ++ q.2)

/-- The outcome of one call to the directory endpoint for a given page:
any transport error, HTTP error status or parse error is `fail`;
otherwise the parsed JSON object, whose `data` array may be absent. -/
inductive PageResult where
  | fail
  | ok (data : Option (List UserRecord))
deriving DecidableEq

/-- The `data` array of a page, defaulting to empty when the key is
absent (and `[]` for a failed
one, where the source never reads it). -/
def pageData : PageResult → List UserRecord
  | PageResult.fail => []
  | PageResult.ok d => d.getD []

/-- A page on which the loop continues: the request succeeded and the
`data` array is non-empty. -/
def goodPage (p : PageResult) : Prop :=
  p ≠ PageResult.fail ∧ pageData p ≠ []

instance (p : PageResult) : Decidable (goodPage p) := by
  unfold goodPage; infer_instance

/-- The `while True` pagination loop of `fetch_country_data`
(fetch_country.py, lines 49–76), with an explicit fuel bound: `none`
means the loop has not terminated within `fuel` iterations.  On a failed
request the accumulated list is returned (the `except` branch breaks); on
an empty `data` array the accumulated list is returned (the `if not
users` break); otherwise the page's users are badge-augmented, appended,
and the loop continues with the next page number. -/
def fetchPages (dir : Nat → PageResult) (ext : String → ExternalResp) :
    Nat → Nat → List UserRecord → Option (List UserRecord)
  | 0, _, _ => none
  | fuel + 1, page, acc =>
      match dir page with
      | PageResult.fail => some acc
      | PageResult.ok data =>
          let users := data.getD []
          if users = [] then some acc
          else fetchPages dir ext fuel (page + 1) (acc ++ (processUsers ext users).1)

/-- Embeds `fetch_country_data` (fetch_country.py, lines 40–76): run the
pagination loop from page 1 with an empty accumulator. -/
def fetch_country_data (dir : Nat → PageResult) (ext : String → ExternalResp)
    (fuel : Nat) : Option (List UserRecord) :=
  fetchPages dir ext fuel 1 []

/-- The badge-augmented user list of page `p`. -/
def processedPage (dir : Nat → PageResult) (ext : String → ExternalResp)
    (p : Nat) : List UserRecord :=
  (processUsers ext (pageData (dir p))).1

/-- Pagination stops exactly at page `k`: every earlier page (from 1) is a
successful non-empty page, and page `k` is a failure or empty. -/
def stopsAt (dir : Nat → PageResult) (k : Nat) : Prop :=
  1 ≤ k ∧ (∀ p, 1 ≤ p → p < k → goodPage (dir p)) ∧ ¬ goodPage (dir k)

lemma fetchPages_stop (dir : Nat → PageResult) (ext : String → ExternalResp) :
    ∀ (k page : Nat) (acc : List UserRecord),
      (∀ i, i < k → goodPage (dir (page + i))) →
      ¬ goodPage (dir (page + k)) →
      ∀ fuel, k + 1 ≤ fuel →
        fetchPages dir ext fuel page acc =
          some (acc ++ ((List.range' page k).map (processedPage dir ext)).flatten) := by
  intro k
  induction k with
  | zero =>
      intro page acc _ hstop fuel hfuel
      obtain ⟨f, rfl⟩ : ∃ f, fuel = f + 1 := ⟨fuel - 1, by omega⟩
      simp only [Nat.add_zero] at hstop
      cases hdir : dir page with
      | fail => simp [fetchPages, hdir]
      | ok d =>
          have hempty : d.getD [] = [] := by
            by_contra hne
            exact hstop ⟨by simp [hdir], by simpa [pageData, hdir] using hne⟩
          simp [fetchPages, hdir, hempty]
  | succ k ih =>
      intro page acc hgood hstop fuel hfuel
      obtain ⟨f, rfl⟩ : ∃ f, fuel = f + 1 := ⟨fuel - 1, by omega⟩
      have hg : goodPage (dir page) := by
        have := hgood 0 (by omega); simpa using this
      cases hdir : dir page with
      | fail => exact absurd rfl (by rw [hdir] at hg; exact hg.1)
      | ok d =>
          have hne : d.getD [] ≠ [] := by
            have := hg.2; simpa [pageData, hdir] using this
          have hgood' : ∀ i, i < k → goodPage (dir (page + 1 + i)) := by
            intro i hi
            have harith : page + 1 + i = page + (i + 1) := by omega
            rw [harith]
            exact hgood (i + 1) (by omega)
          have hstop' : ¬ goodPage (dir (page + 1 + k)) := by
            have harith : page + 1 + k = page + (k + 1) := by omega
            rw [harith]; exact hstop
          have hrec := ih (page + 1) (acc ++ (processUsers ext (d.getD [])).1)
            hgood' hstop' f (by omega)
          have hstep :
              fetchPages dir ext (f + 1) page acc =
                fetchPages dir ext f (page + 1)
                  (acc ++ (processUsers ext (d.getD [])).1) := by
            simp [fetchPages, hdir, hne]
          rw [hstep, hrec, List.range'_succ]
          simp [processedPage, pageData, hdir, List.append_assoc]

lemma fetchPages_none (dir : Nat → PageResult) (ext : String → ExternalResp) :
    ∀ (fuel page : Nat) (acc : List UserRecord),
      (∀ i, goodPage (dir (page + i))) →
      fetchPages dir ext fuel page acc = none := by
  intro fuel
  induction fuel with
  | zero => intro page acc _; rfl
  | succ f ih =>
      intro page acc hgood
      have hg : goodPage (dir page) := by have := hgood 0; simpa using this
      cases hdir : dir page with
      | fail => exact absurd rfl (by rw [hdir] at hg; exact hg.1)
      | ok d =>
          have hne : d.getD [] ≠ [] := by
            have := hg.2; simpa [pageData, hdir] using this
          have hstep :
              fetchPages dir ext (f + 1) page acc =
                fetchPages dir ext f (page + 1)
                  (acc ++ (processUsers ext (d.getD [])).1) := by
            simp [fetchPages, hdir, hne]
          rw [hstep]
          exact ih (page + 1) _ (fun i => by
            have harith : page + 1 + i = page + (i + 1) := by omega
            rw [harith]; exact hgood (i + 1))

lemma processUsers_fst (ext : String → ExternalResp) :
    ∀ us : List UserRecord,
      (processUsers ext us).1 = us.map (fun v => (processUser ext v).1) := by
  intro us
  induction us with
  | nil => rfl
  | cons u rest ih => simp [processUsers, ih]

/-- C1: every user record of a successful page that carries a (truthy)
user id ends up with final badge count = primary count (absent defaulting
to 0) + the secondary count returned by the external lookup, and the
secondary count is 0 whenever that lookup fails; the page's records are
processed element-wise in order. -/
theorem c1_badge_count_sum (ext : String → ExternalResp) (us : List UserRecord)
    (u : UserRecord) (uid : String) (hid : u.id = some uid) (hne : uid ≠ "") :
    (processUsers ext us).1 = us.map (fun v => (processUser ext v).1)
    ∧ (processUser ext u).1.badge_count =
        some (u.badge_count.getD 0 + fetch_github_external_badges (ext uid))
    ∧ (ext uid = ExternalResp.fail → fetch_github_external_badges (ext uid) = 0) := by
  refine ⟨processUsers_fst ext us, ?_, ?_⟩
  · simp [processUser, hid, hne]
  · intro hf; rw [hf]; rfl

/-- An external-badge entry that counts: Microsoft-issued, name contains
"GitHub". -/
def wBadgeYes : BadgeEntry := ⟨some ⟨some "GitHub Foundations", some "Microsoft"⟩⟩

/-- An external-badge entry that does not count. -/
def wBadgeNo : BadgeEntry := ⟨some ⟨some "Azure Fundamentals", some "Microsoft"⟩⟩

/-- External endpoint fixture: user "u1" has two matching badges and one
non-matching one; every other user's lookup fails. -/
def wExtC1 : String → ExternalResp := fun uid =>
  if uid = "u1" then ExternalResp.ok (some [wBadgeYes, wBadgeYes, wBadgeNo])
  else ExternalResp.fail

/-- User fixture with id "u1" and primary badge count 3. -/
def wUserC1 : UserRecord := ⟨some "u1", some "Ada", none, some "L", some 3⟩

theorem c1_badge_count_sum_witness :
    (processUser wExtC1 wUserC1).1.badge_count = some 5 := by
  have h := (c1_badge_count_sum wExtC1 [wUserC1] wUserC1 "u1" rfl (by decide)).2.1
  rw [h]; decide

/-- C2: the pagination loop terminates iff some page (the first being
page 1) fails or returns an empty user sequence; when it stops at page
`k`, the returned list is exactly the in-order concatenation of the
badge-augmented users of the successful pages `1 … k-1` — in particular,
on a page failure the accumulated partial list is returned as a normal
value, not an exception. -/
theorem c2_pagination_termination (dir : Nat → PageResult) (ext : String → ExternalResp) :
    ((∃ fuel, (fetch_country_data dir ext fuel).isSome) ↔ ∃ k, stopsAt dir k)
    ∧ (∀ k, stopsAt dir k → ∀ fuel, k ≤ fuel →
        fetch_country_data dir ext fuel =
          some (((List.range' 1 (k - 1)).map (processedPage dir ext)).flatten)) := by
  have hpart2 : ∀ k, stopsAt dir k → ∀ fuel, k ≤ fuel →
      fetch_country_data dir ext fuel =
        some (((List.range' 1 (k - 1)).map (processedPage dir ext)).flatten) := by
    intro k hk fuel hfuel
    obtain ⟨hk1, hgood, hstop⟩ := hk
    have h := fetchPages_stop dir ext (k - 1) 1 []
      (fun i hi => hgood (1 + i) (by omega) (by omega))
      (by have harith : 1 + (k - 1) = k := by omega
          rw [harith]; exact hstop)
      fuel (by omega)
    simpa [fetch_country_data] using h
  refine ⟨⟨?_, ?_⟩, hpart2⟩
  · intro hsome
    by_cases hex : ∃ p, 1 ≤ p ∧ ¬ goodPage (dir p)
    · refine ⟨Nat.find hex, (Nat.find_spec hex).1, ?_, (Nat.find_spec hex).2⟩
      intro p hp1 hplt
      by_contra hbad
      exact Nat.find_min hex hplt ⟨hp1, hbad⟩
    · obtain ⟨fuel, hfuel⟩ := hsome
      push_neg at hex
      have hnone := fetchPages_none dir ext fuel 1 [] (fun i => hex (1 + i) (by omega))
      rw [fetch_country_data, hnone] at hfuel
      simp at hfuel
  · rintro ⟨k, hk⟩
    exact ⟨k, by rw [hpart2 k hk k le_rfl]; rfl⟩

/-- User fixture for the pagination witness. -/
def wUserC2 : UserRecord := ⟨some "u2", some "Bea", none, none, some 1⟩

/-- Directory fixture: page 1 holds one user, every later page is empty. -/
def wDirC2 : Nat → PageResult := fun p =>
  if p = 1 then PageResult.ok (some [wUserC2]) else PageResult.ok (some [])

/-- External endpoint fixture that always fails. -/
def wExtC2 : String → ExternalResp := fun _ => ExternalResp.fail

theorem c2_pagination_termination_witness :
    fetch_country_data wDirC2 wExtC2 2 = some [wUserC2] := by
  have hstop : stopsAt wDirC2 2 := by
    refine ⟨by omega, ?_, by decide⟩
    intro p h1 h2
    have hp : p = 1 := by omega
    subst hp; decide
  have h := (c2_pagination_termination wDirC2 wExtC2).2 2 hstop 2 le_rfl
  rw [h]; decide

/-- C3: on a successful response, `fetch_github_external_badges` returns
the number of entries of the `data` array whose issuer name is
"Microsoft" and whose badge name contains "GitHub"; on any failure of the
lookup it returns 0 instead of propagating the failure. -/
theorem c3_external_badge_filter :
    (∀ data : Option (List BadgeEntry),
        fetch_github_external_badges (ExternalResp.ok data) =
          List.countP
            (fun b => decide (issuerNameOf b = "Microsoft"
                              ∧ ContainsSub "GitHub" (badgeNameOf b)))
            (data.getD []))
    ∧ fetch_github_external_badges ExternalResp.fail = 0 := by
  constructor
  · intro data
    simp only [fetch_github_external_badges]
    rw [← List.countP_eq_length_filter]
    apply List.countP_congr
    intro b _
    simp [strHasSub_iff, Bool.and_eq_true, beq_iff_eq, decide_eq_true_eq]
  · rfl

/-- The fixed CSV header row (fetch_country.py, line 87). -/
def csv_header : List String :=
  ["first_name", "middle_name", "last_name", "badge_count"]

/-- The row written for one user (fetch_country.py, lines 89–95): absent
names default to the empty string, an absent badge count to 0. -/
def csvRow (u : UserRecord) : List String :=
  [u.first_name.getD "", u.middle_name.getD "", u.last_name.getD "",
   toString (u.badge_count.getD 0)]

/-- The filename slug (fetch_country.py, line 82), lower-casing the
country and replacing spaces by hyphens,
character by character: lowercase, then turn spaces into hyphens. -/
def file_suffix (country : String) : String :=
  String.mk (country.toList.map (fun c =>
    let l := c.toLower
    if l = ' ' then '-' else l))

/-- The default `output_dir` argument of `save_to_csv`. -/
def defaultOutputDir : String := "datasource"

/-- Embeds `save_to_csv` (fetch_country.py, lines 78–98), modelled as the output
path together with the list of rows written: the header first, then one
row per user in the order received. -/
def save_to_csv (country : String) (users : List UserRecord)
    (output_dir : String) : String × List (List String) :=
  (output_dir ++ "/github-certs-" ++ file_suffix country ++ ".csv",
   csv_header :: users.map csvRow)

/-- C4: the writer emits exactly one file whose path is a pure function of
the country string (`github-certs-<lowercase, spaces→hyphens>.csv` under
the output directory), whose first row is the fixed header and whose row
`i+1` is the row of user `i` — one row per user, insertion order, no
sorting; the empty user list yields a header-only file. -/
theorem c4_writer_deterministic (country : String) (users : List UserRecord)
    (output_dir : String) :
    (∀ users2, (save_to_csv country users2 output_dir).1 =
        (save_to_csv country users output_dir).1)
    ∧ (save_to_csv country users output_dir).1 =
        output_dir ++ "/github-certs-" ++ file_suffix country ++ ".csv"
    ∧ ((save_to_csv country users output_dir).2)[0]? = some csv_header
    ∧ (∀ i : Nat, ((save_to_csv country users output_dir).2)[i + 1]? =
        (users[i]?).map csvRow)
    ∧ (save_to_csv country users output_dir).2.length = users.length + 1
    ∧ (save_to_csv country [] output_dir).2 = [csv_header]
    ∧ file_suffix "United States" = "united-states" := by
  refine ⟨fun users2 => rfl, rfl, by simp [save_to_csv], ?_, by simp [save_to_csv],
    rfl, by decide⟩
  intro i
  simp [save_to_csv]

/-- Exit code and written file of the single-country `main`
(fetch_country.py, lines 100–125), as a function of the argument vector
(including the program name) and of the user list the fetch returned:
fewer than two arguments exit 1 without writing; otherwise the CSV is
written and the exit code is 0. -/
def fetchCountryMainExit (argv : List String) (users : List UserRecord) :
    Nat × Option (String × List (List String)) :=
  if argv.length < 2 then (1, none)
  else (0, some (save_to_csv (argv.getD 1 "") users defaultOutputDir))

/-- The tally and exit code of the multi-country `main`
(fetch_data.py, lines 49–102), as a function of the per-country outcomes
in completion order: success count, failed country names, and exit code 0
iff no country failed. -/
def summarize (outcomes : List (String × String × Option String)) :
    Nat × Nat × List String :=
  let failed_countries :=
    (outcomes.filter (fun o => !(o.2.1 == "success"))).map (fun o => o.1)
  let success_count := (outcomes.filter (fun o => o.2.1 == "success")).length
  ((if failed_countries.length = 0 then 0 else 1), success_count, failed_countries)

/-- C5: the multi-country run exits 0 iff zero countries failed (else 1);
the single-country run exits 1 iff the country argument is missing, and
exits 0 otherwise whatever the fetched user list was. -/
theorem c5_exit_codes (argv : List String) (users : List UserRecord)
    (outcomes : List (String × String × Option String)) :
    ((fetchCountryMainExit argv users).1 = 1 ↔ argv.length < 2)
    ∧ ((fetchCountryMainExit argv users).1 = 0 ↔ 2 ≤ argv.length)
    ∧ (∀ users2, (fetchCountryMainExit argv users2).1 =
        (fetchCountryMainExit argv users).1)
    ∧ ((summarize outcomes).1 = 0 ↔
        outcomes.countP (fun o => !(o.2.1 == "success")) = 0)
    ∧ ((summarize outcomes).1 = 1 ↔
        outcomes.countP (fun o => !(o.2.1 == "success")) ≠ 0) := by
  have hlen :
      ((outcomes.filter (fun o => !(o.2.1 == "success"))).map (fun o => o.1)).length =
        outcomes.countP (fun o => !(o.2.1 == "success")) := by
    rw [List.length_map, List.countP_eq_length_filter]
  refine ⟨?_, ?_, ?_, ?_, ?_⟩
  · by_cases h : argv.length < 2 <;> simp [fetchCountryMainExit, h]
  · by_cases h : argv.length < 2
    · simp [fetchCountryMainExit, h]
    · simp [fetchCountryMainExit, h]; omega
  · intro users2
    by_cases h : argv.length < 2 <;> simp [fetchCountryMainExit, h]
  · simp only [summarize, hlen]
    split <;> rename_i h <;> simp [h]
  · simp only [summarize, hlen]
    split <;> rename_i h <;> simp [h]

/-- External endpoint fixture that always fails. -/
def extAlwaysFail : String → ExternalResp := fun _ => ExternalResp.fail

/-- C10: a user record whose id is absent or falsy (empty) triggers no
external-badge lookup (the lookup log is empty) and is passed on
unchanged — its badge count in particular, possibly still absent — and
the writer's row for it shows 0 for an absent badge count and empty
strings for absent name fields. -/
theorem c10_falsy_id_skips_lookup (ext : String → ExternalResp) (u : UserRecord)
    (hid : u.id = none ∨ u.id = some "") :
    processUser ext u = (u, [])
    ∧ (processUser ext u).1.badge_count = u.badge_count
    ∧ (u.badge_count = none → (csvRow (processUser ext u).1)[3]? = some "0")
    ∧ (u.first_name = none → (csvRow (processUser ext u).1)[0]? = some "")
    ∧ (u.middle_name = none → (csvRow (processUser ext u).1)[1]? = some "")
    ∧ (u.last_name = none → (csvRow (processUser ext u).1)[2]? = some "") := by
  have hpu : processUser ext u = (u, []) := by
    rcases hid with h | h <;> simp [processUser, h]
  refine ⟨hpu, by rw [hpu], ?_, ?_, ?_, ?_⟩ <;>
    · intro h
      rw [hpu]
      simp [csvRow, h]
      all_goals decide

/-- User fixture with every field absent. -/
def wUserC10 : UserRecord := ⟨none, none, none, none, none⟩

theorem c10_falsy_id_skips_lookup_witness :
    (csvRow (processUser extAlwaysFail wUserC10).1)[3]? = some "0" :=
  (c10_falsy_id_skips_lookup extAlwaysFail wUserC10 (Or.inl rfl)).2.2.1 rfl

/-- How one subprocess invocation of the per-country script can end: normal completion with an exit code, expiry of the
timeout (`subprocess.TimeoutExpired`), or any other exception. -/
inductive RunResult where
  | completed (returncode : Int)
  | timedOut
  | raised (msg : String)
deriving DecidableEq

/-- The fixed list of large countries (fetch_data.py, lines 28–29). -/
def large_countries : List String :=
  ["Brazil", "India", "United States", "China", "Germany",
   "United Kingdom", "France", "Canada", "Japan"]

/-- The per-country deadline (fetch_data.py, line 30): 900 for a large
country, 120 otherwise. -/
def timeoutFor (country : String) : Nat :=
  if country ∈ large_countries then 900 else 120

/-- A per-country outcome: country name, status string, optional reason. -/
abbrev FetchOutcome := String × String × Option String

/-- Embeds `fetch_country_data` of fetch_data.py (lines 25–47), the per-country
unit of the orchestrator, as a function of the subprocess's behaviour
(`run country timeout`): exit code 0 is a success; a non-zero exit code, a
timeout, or any other exception is a failure with a diagnostic reason —
always a structured triple, never an escaping exception. -/
def fetch_country_unit (run : String → Nat → RunResult) (country : String) :
    FetchOutcome :=
  match run country (timeoutFor country) with
  | RunResult.completed rc =>
      if rc = 0 then (country, "success", none)
      else (country, "failed", some ("Exit code: " ++ toString rc))
  | RunResult.timedOut =>
      (country, "failed", some ("Timeout (" ++ toString (timeoutFor country) ++ "s)"))
  | RunResult.raised msg => (country, "failed", some msg)

/-- C7: the deadline passed to the subprocess invocation is 900 for the
members of the fixed large-country list (which includes "Brazil" and
"India") and 120 for every other country. -/
theorem c7_deadline_selection (country : String) :
    (country ∈ large_countries → timeoutFor country = 900)
    ∧ (country ∉ large_countries → timeoutFor country = 120)
    ∧ "Brazil" ∈ large_countries ∧ "India" ∈ large_countries := by
  refine ⟨fun h => ?_, fun h => ?_, by decide, by decide⟩
  · simp [timeoutFor, h]
  · simp [timeoutFor, h]

theorem c7_deadline_selection_witness :
    timeoutFor "Brazil" = 900 ∧ timeoutFor "Paraguay" = 120 :=
  ⟨(c7_deadline_selection "Brazil").1 (by decide),
   (c7_deadline_selection "Paraguay").2.1 (by decide)⟩

/-- C6: whatever the subprocess does, the per-country unit returns a
structured outcome carrying the country name and a success/failed status;
a deadline expiry is recorded as failed with the timeout diagnostic, a
non-zero exit code as failed with the exit-code diagnostic, and any other
exception as failed with its description — no exception escapes. -/
theorem c6_unit_outcome (run : String → Nat → RunResult) (country : String) :
    (fetch_country_unit run country).1 = country
    ∧ ((fetch_country_unit run country).2.1 = "success"
       ∨ (fetch_country_unit run country).2.1 = "failed")
    ∧ (run country (timeoutFor country) = RunResult.timedOut →
        fetch_country_unit run country =
          (country, "failed",
           some ("Timeout (" ++ toString (timeoutFor country) ++ "s)")))
    ∧ (∀ rc : Int, rc ≠ 0 → run country (timeoutFor country) = RunResult.completed rc →
        fetch_country_unit run country =
          (country, "failed", some ("Exit code: " ++ toString rc)))
    ∧ (∀ msg, run country (timeoutFor country) = RunResult.raised msg →
        fetch_country_unit run country = (country, "failed", some msg)) := by
  refine ⟨?_, ?_, ?_, ?_, ?_⟩
  · cases h : run country (timeoutFor country) with
    | completed rc =>
        by_cases hz : rc = 0 <;> simp [fetch_country_unit, h, hz]
    | timedOut => simp [fetch_country_unit, h]
    | raised msg => simp [fetch_country_unit, h]
  · cases h : run country (timeoutFor country) with
    | completed rc =>
        by_cases hz : rc = 0 <;> simp [fetch_country_unit, h, hz]
    | timedOut => simp [fetch_country_unit, h]
    | raised msg => simp [fetch_country_unit, h]
  · intro h; simp [fetch_country_unit, h]
  · intro rc hrc h; simp [fetch_country_unit, h, hrc]
  · intro msg h; simp [fetch_country_unit, h]

/-- Subprocess fixture: "India" overruns its deadline, everything else
exits 0. -/
def wRunC6 : String → Nat → RunResult := fun c _ =>
  if c = "India" then RunResult.timedOut else RunResult.completed 0

theorem c6_unit_outcome_witness :
    fetch_country_unit wRunC6 "India" = ("India", "failed", some "Timeout (900s)") := by
  have h := (c6_unit_outcome wRunC6 "India").2.2.1 rfl
  rw [h]; decide

/-- The state of the worker pool driving the per-country units
(fetch_data.py, lines 65–85): countries not yet submitted to a worker,
countries currently in flight, and the outcomes collected so far in
completion order. -/
structure PoolState where
  pending : List String
  running : List String
  done : List FetchOutcome

/-- All countries pending, nothing in flight, nothing collected. -/
def initPool (countries : List String) : PoolState := ⟨countries, [], []⟩

/-- The worker-pool concurrency cap (fetch_data.py, line 65). -/
def max_workers : Nat := 10

/-- One scheduling event of the bounded pool: a pending country starts
when fewer than `cap` units are in flight, or an in-flight unit finishes
and its outcome is collected. -/
inductive PoolStep (cap : Nat) (unit : String → FetchOutcome) :
    PoolState → PoolState → Prop
  | start {c : String} {rest r : List String} {d : List FetchOutcome} :
      r.length < cap →
      PoolStep cap unit ⟨c :: rest, r, d⟩ ⟨rest, c :: r, d⟩
  | finish {p r : List String} {d : List FetchOutcome} {c : String} :
      c ∈ r →
      PoolStep cap unit ⟨p, r, d⟩ ⟨p, r.erase c, unit c :: d⟩

/-- Reflexive-transitive closure of pool scheduling events. -/
inductive PoolReach (cap : Nat) (unit : String → FetchOutcome) :
    PoolState → PoolState → Prop
  | refl (s) : PoolReach cap unit s s
  | tail {s t u} : PoolReach cap unit s t → PoolStep cap unit t u →
      PoolReach cap unit s u

/-- Pool invariant: the in-flight count never exceeds the cap, every
country is accounted for exactly once (pending, in flight, or done), and
every collected outcome is the unit's outcome for its own country. -/
def PoolInv (cap : Nat) (unit : String → FetchOutcome) (countries : List String)
    (s : PoolState) : Prop :=
  s.running.length ≤ cap
  ∧ (s.pending ++ s.running ++ s.done.map (fun o => o.1)).Perm countries
  ∧ ∀ o ∈ s.done, o = unit o.1

lemma unit_fst (run : String → Nat → RunResult) (c : String) :
    (fetch_country_unit run c).1 = c := by
  cases h : run c (timeoutFor c) with
  | completed rc => by_cases hz : rc = 0 <;> simp [fetch_country_unit, h, hz]
  | timedOut => simp [fetch_country_unit, h]
  | raised msg => simp [fetch_country_unit, h]

lemma poolStep_inv {cap : Nat} {unit : String → FetchOutcome}
    {countries : List String} {s t : PoolState}
    (hfst : ∀ c, (unit c).1 = c)
    (hstep : PoolStep cap unit s t) (hinv : PoolInv cap unit countries s) :
    PoolInv cap unit countries t := by
  obtain ⟨hlen, hperm, hdone⟩ := hinv
  cases hstep with
  | start hlt =>
      rename_i c rest r d
      refine ⟨by simpa using hlt, ?_, hdone⟩
      refine List.Perm.trans ?_ hperm
      simp only [List.append_assoc, List.cons_append]
      exact List.perm_middle
  | finish hc =>
      rename_i p r d c
      have hlen' : (r.erase c).length = r.length - 1 := List.length_erase_of_mem hc
      dsimp only at hlen
      refine ⟨by dsimp only; omega, ?_, ?_⟩
      · refine List.Perm.trans ?_ hperm
        simp only [List.append_assoc, List.cons_append, List.map_cons, hfst c]
        exact List.Perm.append_left p
          (List.perm_middle.trans (((List.perm_cons_erase hc).append_right _).symm))
      · intro o ho
        rcases List.mem_cons.mp ho with h | h
        · subst h; rw [hfst c]
        · exact hdone o h

lemma poolReach_inv {cap : Nat} {unit : String → FetchOutcome}
    {countries : List String} {s : PoolState}
    (hfst : ∀ c, (unit c).1 = c)
    (h : PoolReach cap unit (initPool countries) s) :
    PoolInv cap unit countries s := by
  induction h with
  | refl =>
      refine ⟨Nat.zero_le _, ?_, ?_⟩
      · simp [initPool]
      · simp [initPool]
  | tail hreach hstep ih => exact poolStep_inv hfst hstep ih

/-- C8: starting every country pending, any reachable pool state has at
most 10 units in flight; and in any reachable final state (nothing
pending, nothing in flight) the collected outcomes cover every country
exactly once, the country whose unit overran its deadline is recorded as
failed with the timeout diagnostic, and every other country's outcome is
exactly what it would have been under a subprocess behaviour that differs
only on the timed-out country. -/
theorem c8_pool_bound_and_isolation (countries : List String)
    (run run2 : String → Nat → RunResult) (c0 : String)
    (hto : run c0 (timeoutFor c0) = RunResult.timedOut)
    (hagree : ∀ c, c ≠ c0 → run c = run2 c) :
    (∀ s, PoolReach max_workers (fetch_country_unit run) (initPool countries) s →
        s.running.length ≤ 10)
    ∧ (∀ s, PoolReach max_workers (fetch_country_unit run) (initPool countries) s →
        s.pending = [] → s.running = [] →
        ((s.done.map (fun o => o.1)).Perm countries
         ∧ (∀ o ∈ s.done, o.1 = c0 →
             o.2 = ("failed", some ("Timeout (" ++ toString (timeoutFor c0) ++ "s)")))
         ∧ (∀ o ∈ s.done, o.1 ≠ c0 → o = fetch_country_unit run2 o.1))) := by
  have hfst : ∀ c, (fetch_country_unit run c).1 = c := unit_fst run
  constructor
  · intro s hs
    exact (poolReach_inv hfst hs).1
  · intro s hs hp hr
    obtain ⟨-, hperm, hdone⟩ := poolReach_inv hfst hs
    rw [hp, hr] at hperm
    refine ⟨by simpa using hperm, ?_, ?_⟩
    · intro o ho hoc0
      have heq := hdone o ho
      rw [heq, hoc0]
      simp [fetch_country_unit, hto]
    · intro o ho hne
      have key : ∀ c, run c = run2 c →
          fetch_country_unit run c = fetch_country_unit run2 c := by
        intro c hrc
        simp only [fetch_country_unit, hrc]
      exact (hdone o ho).trans (key o.1 (hagree o.1 hne))

/-- Country list fixture for the pool witness. -/
def wCountries : List String := ["India", "Peru"]

/-- Alternative subprocess fixture where every country exits 0. -/
def wRun2C8 : String → Nat → RunResult := fun _ _ => RunResult.completed 0

theorem c8_pool_bound_and_isolation_witness :
    (([fetch_country_unit wRunC6 "Peru", fetch_country_unit wRunC6 "India"].map
        (fun o => o.1)).Perm wCountries) := by
  have hagree : ∀ c, c ≠ "India" → wRunC6 c = wRun2C8 c := by
    intro c hc
    funext t
    simp [wRunC6, wRun2C8, hc]
  have h1 : PoolStep max_workers (fetch_country_unit wRunC6)
      ⟨["India", "Peru"], [], []⟩ ⟨["Peru"], ["India"], []⟩ :=
    PoolStep.start (by decide)
  have h2 : PoolStep max_workers (fetch_country_unit wRunC6)
      ⟨["Peru"], ["India"], []⟩
      ⟨["Peru"], [], [fetch_country_unit wRunC6 "India"]⟩ :=
    PoolStep.finish (List.mem_singleton.mpr rfl)
  have h3 : PoolStep max_workers (fetch_country_unit wRunC6)
      ⟨["Peru"], [], [fetch_country_unit wRunC6 "India"]⟩
      ⟨[], ["Peru"], [fetch_country_unit wRunC6 "India"]⟩ :=
    PoolStep.start (by decide)
  have h4 : PoolStep max_workers (fetch_country_unit wRunC6)
      ⟨[], ["Peru"], [fetch_country_unit wRunC6 "India"]⟩
      ⟨[], [], [fetch_country_unit wRunC6 "Peru", fetch_country_unit wRunC6 "India"]⟩ :=
    PoolStep.finish (List.mem_singleton.mpr rfl)
  have hreach : PoolReach max_workers (fetch_country_unit wRunC6)
      (initPool wCountries)
      ⟨[], [], [fetch_country_unit wRunC6 "Peru", fetch_country_unit wRunC6 "India"]⟩ :=
    PoolReach.tail (PoolReach.tail (PoolReach.tail
      (PoolReach.tail (PoolReach.refl _) h1) h2) h3) h4
  exact ((c8_pool_bound_and_isolation wCountries wRunC6 wRun2C8 "India" rfl hagree).2
    _ hreach rfl rfl).1

/-- Python `str.title()` on a character list: a cased character that
follows a non-cased one starts a word and is uppercased; later cased
characters of the word are lowercased; non-cased characters pass through.
The flag records whether the previous character was cased. -/
def pyTitleGo : Bool → List Char → List Char
  | _, [] => []
  | prevAlpha, c :: rest =>
      if c.isAlpha then
        (if prevAlpha then c.toLower else c.toUpper) :: pyTitleGo true rest
      else c :: pyTitleGo false rest

/-- Title-casing of a country key (fetch_data.py, line 21). -/
def pyTitle (s : String) : String := String.mk (pyTitleGo false s.toList)

/-- Python's ascending string order, lexicographic on the character
sequence (the order `sorted` uses in fetch_data.py, line 23). -/
def strLe (a b : String) : Prop := a.toList ≤ b.toList

instance : DecidableRel strLe := fun a b => by unfold strLe; infer_instance

instance : IsTotal String strLe := ⟨fun a b => le_total a.toList b.toList⟩

instance : IsTrans String strLe := ⟨fun _ _ _ => le_trans⟩

/-- Embeds `get_all_countries` (fetch_data.py, lines 16–23), as a function of the
keys of `CONTINENT_MAP`: title-case every key, collect the results into a
set, and return them sorted ascending. -/
def get_all_countries (keys : List String) : List String :=
  List.insertionSort strLe ((keys.map pyTitle).dedup)

/-- C9: the country enumeration is sorted ascending, duplicate-free, and
holds exactly the title-cased keys of the continent map; hence each
distinct title-cased name occurs exactly once in the list the
orchestrator submits (one unit per list element). -/
theorem c9_country_enumeration (keys : List String) :
    (get_all_countries keys).Sorted strLe
    ∧ (get_all_countries keys).Nodup
    ∧ (∀ x, x ∈ get_all_countries keys ↔ ∃ k ∈ keys, pyTitle k = x)
    ∧ (∀ x, (∃ k ∈ keys, pyTitle k = x) → (get_all_countries keys).count x = 1) := by
  have hperm := List.perm_insertionSort strLe ((keys.map pyTitle).dedup)
  have hnodup : (get_all_countries keys).Nodup :=
    hperm.nodup_iff.mpr (List.nodup_dedup _)
  have hmem : ∀ x, x ∈ get_all_countries keys ↔ ∃ k ∈ keys, pyTitle k = x := by
    intro x
    simp only [get_all_countries]
    rw [hperm.mem_iff, List.mem_dedup, List.mem_map]
  refine ⟨List.sorted_insertionSort strLe _, hnodup, hmem, ?_⟩
  intro x hx
  exact List.count_eq_one_of_mem hnodup ((hmem x).mpr hx)

theorem c9_country_enumeration_witness :
    (get_all_countries ["united states", "UNITED STATES"]).count "United States" = 1 :=
  (c9_country_enumeration ["united states", "UNITED STATES"]).2.2.2 "United States"
    ⟨"united states", by decide, by decide⟩

end CertRank
